import Mathlib

/-!
Shallow embedding of the VoxNova Studio text-to-speech front-end
(`voxnova_app.py`).  Python strings are modelled as Lean `String`s and the
handful of Python string primitives the app uses (`in`, `lower`, `strip`,
`split`, `capitalize`) are defined below over the character list of the
string, matching CPython semantics on the inputs the app produces.
-/

/-- Whether `pat` is a prefix of the second list (character-wise equality). -/
def listStartsWith : List Char → List Char → Bool
  | [], _ => true
  | _ :: _, [] => false
  | p :: ps, c :: cs => p == c && listStartsWith ps cs

/-- Whether `pat` occurs contiguously inside the second list.  Models the
Python substring test `pat in hay`. -/
def listHasSub (pat : List Char) : List Char → Bool
  | [] => pat.isEmpty
  | c :: cs => listStartsWith pat (c :: cs) || listHasSub pat cs

/-- Python `pat in hay` on strings. -/
def strHasSub (hay pat : String) : Bool :=
  listHasSub pat.toList hay.toList

/-- Python `s.lower()` (ASCII case mapping, which is all the app relies on). -/
def pyLower (s : String) : String :=
  String.mk (s.toList.map Char.toLower)

/-- Python `s.strip()`: remove leading and trailing whitespace. -/
def pyStrip (s : String) : String :=
  String.mk (((s.toList.dropWhile Char.isWhitespace).reverse.dropWhile Char.isWhitespace).reverse)

/-- Python `s.capitalize()`: first character upper-cased, the rest lower-cased. -/
def pyCapitalize (s : String) : String :=
  match s.toList with
  | [] => ""
  | c :: cs => String.mk (c.toUpper :: cs.map Char.toLower)

/-- Python `s.split(sep)` for a one-character separator, on character lists.
`cur` is the (reversed) current segment accumulator. -/
def pySplitAux (sep : Char) (cur : List Char) : List Char → List (List Char)
  | [] => [cur.reverse]
  | c :: cs => if c == sep then cur.reverse :: pySplitAux sep [] cs
               else pySplitAux sep (c :: cur) cs

/-- Python `s.split(sep)[-1]` for a one-character separator. -/
def pySplitLast (sep : Char) (s : String) : String :=
  String.mk ((pySplitAux sep [] s.toList).getLastD [])

/-- Raw voice metadata as obtained from the speech backend
(`engine.getProperty("voices")` entries): `name`, `id`, an optional `gender`
attribute and an optional list of language tags. -/
structure RawVoice where
  name : String
  id : String
  gender : Option String
  languages : List String
deriving DecidableEq, Repr

/-- `VoxNovaApp._short_voice_id`: `"default"` for an empty id, otherwise the
last segment of the id split on `":"` if the id contains one, else on `"."`. -/
def shortVoiceId (vid : String) : String :=
  if vid = "" then "default"
  else
    let sep : Char := if strHasSub vid ":" then ':' else '.'
    pySplitLast sep vid

/-- The explicit-gender-field step of `VoxNovaApp._detect_gender`: the
`gender` attribute, when it is a string with non-whitespace content, parses to
`"female"` when its lower-casing contains `"female"` or equals `"f"`, else to
`"male"` when it contains `"male"` or equals `"m"`; otherwise the field gives
no answer (`none`) and the heuristics below decide. -/
def parseGenderField : Option String → Option String
  | none => none
  | some g =>
    if pyStrip g = "" then none
    else
      let gl := pyLower g
      if strHasSub gl "female" || gl = "f" then some "female"
      else if strHasSub gl "male" || gl = "m" then some "male"
      else none

/-- The token lists of `VoxNovaApp._detect_gender`. -/
def femaleTokens : List String := ["female", "zira", "hazel", "samantha", "eva", "catherine"]

/-- The male token list of `VoxNovaApp._detect_gender`. -/
def maleTokens : List String := ["male", "david", "mark", "alex", "daniel", "fred"]

/-- The substring-heuristic step of `VoxNovaApp._detect_gender`, applied to the
lower-cased concatenation of name and id. -/
def heuristicGender (name vid : String) : String :=
  let text := pyLower (name ++ " " ++ vid)
  if strHasSub text "+f" || femaleTokens.any (fun t => strHasSub text t) then "female"
  else if strHasSub text "+m" || maleTokens.any (fun t => strHasSub text t) then "male"
  else "unknown"

/-- `VoxNovaApp._detect_gender`: explicit gender field first, then the
name/id substring heuristics, else `"unknown"`. -/
def detectGender (v : RawVoice) : String :=
  match parseGenderField v.gender with
  | some r => r
  | none => heuristicGender v.name v.id

/-- The language suffix of a display label (`" (lang)"` when the voice lists a
language, `""` otherwise), as built in `VoxNovaApp._load_voices`. -/
def langSuffix (v : RawVoice) : String :=
  match v.languages with
  | [] => ""
  | l :: _ => " (" ++ l ++ ")"

/-- The display label built in `VoxNovaApp._load_voices`:
`f"{name}{lang} — {gender} — {short_id}"` with the detected gender
capitalized. -/
def buildLabel (v : RawVoice) : String :=
  v.name ++ langSuffix v ++ " — " ++ pyCapitalize (detectGender v) ++ " — " ++ shortVoiceId v.id

/-- Insertion into a Python dict modelled as an association list: an existing
key keeps its position and gets the new value, a new key is appended. -/
def dictInsert (m : List (String × String)) (k v : String) : List (String × String) :=
  if m.any (fun p => p.1 == k) then m.map (fun p => if p.1 == k then (k, v) else p)
  else m ++ [(k, v)]

/-- Python `dict.get(k)` on the association-list model (`None` when absent). -/
def dictGet (m : List (String × String)) (k : String) : Option String :=
  (m.find? (fun p => p.1 == k)).map Prod.snd

/-- The `display_to_id` dict built in `VoxNovaApp._load_voices`:
label -> voice id, inserted in catalog enumeration order. -/
def buildDisplayMap (cat : List RawVoice) : List (String × String) :=
  cat.foldl (fun m v => dictInsert m (buildLabel v) v.id) []

/-- The `gender_ok` predicate inside `VoxNovaApp._apply_voice_filter`
(`gender` is the already lower-cased facet string). -/
def gender_ok (gender : String) (label : String) : Bool :=
  if gender = "any" then true
  else
    let lab := pyLower label
    if gender = "male" then strHasSub lab " — male — "
    else if gender = "female" then strHasSub lab " — female — "
    else true

/-- The `filtered` list computed by `VoxNovaApp._apply_voice_filter` from the
display map's keys, the search entry and the gender facet. -/
def filteredLabels (dmap : List (String × String)) (filterVar genderVar : String) :
    List String :=
  let q := pyLower (pyStrip filterVar)
  let gender := pyLower genderVar
  let allVals := dmap.map Prod.fst
  if q ≠ "" then allVals.filter (fun d => strHasSub (pyLower d) q && gender_ok gender d)
  else allVals.filter (fun d => gender_ok gender d)

/-- The slice of application state that `VoxNovaApp._apply_voice_filter`
reads and writes: the display map, the two filter variables, the voice
combobox (current value and value list) and the selected voice id. -/
structure FilterUiState where
  voiceDisplayMap : List (String × String)
  filterVar : String
  genderVar : String
  comboValue : String
  comboValues : List String
  selectedVoiceId : Option String
deriving DecidableEq, Repr

/-- `VoxNovaApp._apply_voice_filter`: no-op on an empty display map; otherwise
recompute the filtered label list, publish it (or the `"(No match)"` sentinel)
as the combobox values, keep the current selection when it survived the
filter, else select the first filtered label and remap the selected voice id,
else show the sentinel and clear the selected voice id. -/
def applyVoiceFilter (s : FilterUiState) : FilterUiState :=
  if s.voiceDisplayMap.isEmpty then s
  else
    let filtered := filteredLabels s.voiceDisplayMap s.filterVar s.genderVar
    let current := s.comboValue
    let newValues := if filtered.isEmpty then ["(No match)"] else filtered
    if filtered.contains current then
      { s with comboValues := newValues }
    else
      match filtered with
      | d0 :: _ =>
        { s with comboValues := newValues, comboValue := d0,
                 selectedVoiceId := dictGet s.voiceDisplayMap d0 }
      | [] =>
        { s with comboValues := newValues, comboValue := "(No match)",
                 selectedVoiceId := none }

/-- A synthesis job handed to the worker thread by `start_speaking` /
`start_saving`: the (stripped) text, the mode string (`"speak"` or `"save"`)
and the target file path for save jobs. -/
structure Job where
  text : String
  mode : String
  filePath : Option String
deriving DecidableEq, Repr

/-- The slice of application state the job-submission and stop handlers touch:
the `is_busy` flag, the shared engine handle (`None` when no job holds one)
and the status-label text. -/
structure RunnerState where
  isBusy : Bool
  engine : Option Nat
  status : String
deriving DecidableEq, Repr

/-- `VoxNovaApp.start_speaking`: returns the updated state and the job handed
to the worker thread (`none` when no thread is started).  A busy runner
returns immediately; empty (post-strip) text only sets a warning status. -/
def start_speaking (s : RunnerState) (rawText : String) : RunnerState × Option Job :=
  if s.isBusy then (s, none)
  else
    let text := pyStrip rawText
    if text = "" then ({ s with status := "⚠️ Please type some text" }, none)
    else ({ s with isBusy := true, status := "🔊 Speaking..." },
          some ⟨text, "speak", none⟩)

/-- `VoxNovaApp.start_saving`: as `start_speaking` but with the save-dialog
result (`none` models a cancelled dialog, which returns without starting
anything). -/
def start_saving (s : RunnerState) (rawText : String) (dialogResult : Option String) :
    RunnerState × Option Job :=
  if s.isBusy then (s, none)
  else
    let text := pyStrip rawText
    if text = "" then ({ s with status := "⚠️ Please type text to save" }, none)
    else
      match dialogResult with
      | none => (s, none)
      | some fp => ({ s with isBusy := true, status := "💾 Saving audio..." },
                    some ⟨text, "save", some fp⟩)

/-- `VoxNovaApp.stop_now`: take the engine handle out of the shared slot, call
`stop()` on it when present (the returned `Bool` records whether a backend
stop was issued), then unconditionally set the status to `"⏹️ Stopped"` and
clear the busy flag. -/
def stop_now (s : RunnerState) : RunnerState × Bool :=
  let eng := s.engine
  ({ s with engine := none, status := "⏹️ Stopped", isBusy := false }, eng.isSome)

/-- The observable behaviour of one `VoxNovaApp._run_tts` backend run: whether
engine initialisation raised, whether the say/save/`runAndWait` sequence
raised, the exception text, and how many bytes the output file holds
afterwards (0 models a missing or empty file; save mode only). -/
structure BackendRun where
  initRaises : Bool
  runRaises : Bool
  errMsg : String
  outputBytes : Nat
deriving DecidableEq, Repr

/-- `os.path.basename` on a POSIX path, as used for the saved-file status. -/
def pyBasename (p : String) : String :=
  String.mk ((pySplitAux '/' [] p.toList).getLastD [])

/-- The final status message `VoxNovaApp._run_tts` posts for a job: the
formatted exception when initialisation or the run raised, otherwise
`"✅ Done"` for speak mode and `"✅ Saved as <basename>"` for save mode.  The
property-setting failures are swallowed by the code and do not reach the
status, and nothing inspects the output file. -/
def runTtsStatus (mode : String) (filePath : Option String) (b : BackendRun) : String :=
  if b.initRaises then "❌ Error: " ++ b.errMsg
  else if b.runRaises then "❌ Error: " ++ b.errMsg
  else if mode = "speak" then "✅ Done"
  else "✅ Saved as " ++ (match filePath with
                          | some fp => pyBasename fp
                          | none => "file")

/-- The clipping the `ttk.Scale` rate slider applies: per the Tk
documentation, `set value` clips the value to the widget's `from`/`to`
range, which `_build_ui` fixes at 80–220. -/
def scaleClip (x : Int) : Int := max 80 (min 220 x)

/-- The rate-slider value at job-submission time, as a function of the
persisted config value (`cfg.get("rate", 160)`, `none` when the key is
absent) and the later slider movements, each clipped by the widget.
`_build_ui` initialises the scale via `rate_scale.set(rate_var.get())`. -/
def rateScaleValue (cfgRate : Option Int) (sliderMoves : List Int) : Int :=
  sliderMoves.foldl (fun _ m => scaleClip m) (scaleClip (cfgRate.getD 160))

/-- The rate `VoxNovaApp._run_tts` passes to `setProperty("rate", ...)`:
every submission path (`start_speaking`, `start_saving`, `preview_voice`)
first runs `_sync_controls`, which copies the slider value into `rate_var`,
and `_run_tts` reads `rate_var`. -/
def engineRateApplied (cfgRate : Option Int) (sliderMoves : List Int) : Int :=
  rateScaleValue cfgRate sliderMoves

/-- The spec's own description of `shortId`, for the refinement comparison:
"returns the trailing segment of `id` split on `:` if present else on `.`;
returns `"default"` for empty input".  The trailing segment after the last
occurrence of the separator is the longest suffix free of it. -/
def shortIdSpec (vid : String) : String :=
  if vid = "" then "default"
  else
    let sep : Char := if strHasSub vid ":" then ':' else '.'
    String.mk ((vid.toList.reverse.takeWhile (fun c => c != sep)).reverse)

/-- The first voice of the spec's two-voice scenario. -/
def ziraVoice : RawVoice := ⟨"Zira", "v1", some "female", []⟩

/-- The second voice of the spec's two-voice scenario. -/
def davidVoice : RawVoice := ⟨"David", "v2", some "male", []⟩

/-- A voice classified female by its explicit gender field whose *name*
contains the label marker `" — Male — "`. -/
def annaVoice : RawVoice := ⟨"Anna — Male — Test", "v3", some "female", []⟩

/-- An idle runner state showing the ready status. -/
def idleReadyState : RunnerState := ⟨false, none, "📝 Ready"⟩

/-- A busy runner state holding an engine handle. -/
def busySpeakingState : RunnerState := ⟨true, some 1, "🔊 Speaking..."⟩

/-- A filter-UI state over the two-voice scenario catalog with no query. -/
def scenarioFilterState : FilterUiState :=
  ⟨buildDisplayMap [ziraVoice, davidVoice], "", "Any",
   "Zira — Female — v1", ["Zira — Female — v1", "David — Male — v2"], some "v1"⟩

/-- A filter-UI state whose query matches no label. -/
def noMatchFilterState : FilterUiState :=
  ⟨buildDisplayMap [ziraVoice, davidVoice], "cortana", "Any",
   "Zira — Female — v1", ["Zira — Female — v1", "David — Male — v2"], some "v1"⟩

example : shortVoiceId "" = "default" := by decide
example : shortVoiceId "com.apple.speech.voice.Alex" = "Alex" := by decide
example : shortVoiceId "HKEY:TTS_MS_EN-US_ZIRA_11.0" = "TTS_MS_EN-US_ZIRA_11.0" := by decide
example : detectGender ⟨"Zira", "v1", some "female", []⟩ = "female" := by decide
example : detectGender ⟨"Bob", "v9", none, []⟩ = "unknown" := by decide
example : buildLabel ⟨"Zira", "v1", some "female", []⟩ = "Zira — Female — v1" := by decide

/-! ### General lemmas about the list-level string model -/

theorem listHasSub_nil_pat : ∀ hay : List Char, listHasSub [] hay = true
  | [] => rfl
  | _ :: cs => by simp [listHasSub, listStartsWith, listHasSub_nil_pat cs]

theorem listStartsWith_append_self : ∀ (pat ys : List Char),
    listStartsWith pat (pat ++ ys) = true
  | [], _ => rfl
  | p :: ps, ys => by simp [listStartsWith, listStartsWith_append_self ps ys]

theorem listHasSub_append_mid : ∀ (xs pat ys : List Char),
    listHasSub pat (xs ++ pat ++ ys) = true := by
  intro xs
  induction xs with
  | nil =>
    intro pat ys
    match pat with
    | [] => simpa using listHasSub_nil_pat ys
    | p :: ps =>
      simp only [listHasSub, List.nil_append, List.cons_append, Bool.or_eq_true]
      exact Or.inl (listStartsWith_append_self (p :: ps) ys)
  | cons x xs ih =>
    intro pat ys
    simp only [listHasSub, List.cons_append, Bool.or_eq_true]
    exact Or.inr (ih pat ys)

theorem takeWhile_append_of_exists_false {α : Type} {p : α → Bool} :
    ∀ (xs ys : List α), (∃ x ∈ xs, p x = false) →
      (xs ++ ys).takeWhile p = xs.takeWhile p := by
  intro xs
  induction xs with
  | nil => intro ys h; simp at h
  | cons x xs ih =>
    intro ys h
    by_cases hx : p x = true
    · simp only [List.cons_append, List.takeWhile_cons, hx]
      rcases h with ⟨w, hw, hwf⟩
      rcases List.mem_cons.mp hw with rfl | hw'
      · rw [hx] at hwf; cases hwf
      · rw [ih ys ⟨w, hw', hwf⟩]
    · have hx' : p x = false := by
        cases hpx : p x
        · rfl
        · exact absurd hpx hx
      simp [List.takeWhile_cons, hx']

theorem takeWhile_append_of_all_true {α : Type} {p : α → Bool} :
    ∀ (xs ys : List α), (∀ x ∈ xs, p x = true) →
      (xs ++ ys).takeWhile p = xs ++ ys.takeWhile p := by
  intro xs
  induction xs with
  | nil => intro ys _; simp
  | cons x xs ih =>
    intro ys h
    have hx := h x (List.mem_cons_self x xs)
    have hrest := ih ys (fun a ha => h a (List.mem_cons_of_mem x ha))
    simp [List.takeWhile_cons, hx, hrest]

theorem takeWhile_eq_self_of_all {α : Type} {p : α → Bool} (xs : List α)
    (h : ∀ x ∈ xs, p x = true) : xs.takeWhile p = xs := by
  have := takeWhile_append_of_all_true (p := p) xs [] h
  simpa using this

theorem pySplitAux_ne_nil (sep : Char) : ∀ (l cur : List Char),
    pySplitAux sep cur l ≠ []
  | [], cur => by simp [pySplitAux]
  | c :: cs, cur => by
    by_cases h : c == sep
    · simp [pySplitAux, h]
    · simp only [pySplitAux, h, Bool.false_eq_true, if_neg]
      exact pySplitAux_ne_nil sep cs (c :: cur)

theorem getLastD_irrel {α : Type} {l : List α} (h : l ≠ []) (d1 d2 : α) :
    l.getLastD d1 = l.getLastD d2 := by
  cases l with
  | nil => exact absurd rfl h
  | cons x xs => rw [List.getLastD_cons, List.getLastD_cons]

theorem pySplitAux_getLastD (sep : Char) : ∀ (l cur : List Char),
    (pySplitAux sep cur l).getLastD [] =
      if sep ∈ l then (l.reverse.takeWhile (fun c => c != sep)).reverse
      else cur.reverse ++ l := by
  intro l
  induction l with
  | nil => intro cur; simp [pySplitAux]
  | cons c cs ih =>
    intro cur
    by_cases hc : c = sep
    · subst hc
      have hbeq : (c == c) = true := by simp
      simp only [pySplitAux, hbeq, if_pos]
      rw [List.getLastD_cons]
      rw [getLastD_irrel (pySplitAux_ne_nil c cs []) cur.reverse []]
      rw [ih []]
      have hmem : c ∈ c :: cs := List.mem_cons_self c cs
      rw [if_pos hmem]
      by_cases hcs : c ∈ cs
      · rw [if_pos hcs]
        have hex : ∃ x ∈ cs.reverse, (x != c) = false := by
          exact ⟨c, List.mem_reverse.mpr hcs, by simp⟩
        have : (c :: cs).reverse.takeWhile (fun x => x != c)
            = cs.reverse.takeWhile (fun x => x != c) := by
          rw [List.reverse_cons]
          exact takeWhile_append_of_exists_false cs.reverse [c] hex
        rw [this]
      · rw [if_neg hcs]
        have hall : ∀ x ∈ cs.reverse, (x != c) = true := by
          intro x hx
          have hxcs : x ∈ cs := List.mem_reverse.mp hx
          have : x ≠ c := fun hxc => hcs (hxc ▸ hxcs)
          simpa using this
        have : (c :: cs).reverse.takeWhile (fun x => x != c) = cs.reverse := by
          rw [List.reverse_cons]
          rw [takeWhile_append_of_all_true cs.reverse [c] hall]
          simp [List.takeWhile_cons]
        rw [this, List.reverse_reverse]
        simp
    · have hbeq : (c == sep) = false := by simp [hc]
      simp only [pySplitAux, hbeq, Bool.false_eq_true, if_false]
      rw [ih (c :: cur)]
      have hmemiff : sep ∈ c :: cs ↔ sep ∈ cs := by
        constructor
        · intro h
          rcases List.mem_cons.mp h with h' | h'
          · exact absurd h'.symm hc
          · exact h'
        · exact List.mem_cons_of_mem c
      by_cases hcs : sep ∈ cs
      · rw [if_pos hcs, if_pos (hmemiff.mpr hcs)]
        have hex : ∃ x ∈ cs.reverse, (x != sep) = false :=
          ⟨sep, List.mem_reverse.mpr hcs, by simp⟩
        have : (c :: cs).reverse.takeWhile (fun x => x != sep)
            = cs.reverse.takeWhile (fun x => x != sep) := by
          rw [List.reverse_cons]
          exact takeWhile_append_of_exists_false cs.reverse [c] hex
        rw [this]
      · rw [if_neg hcs, if_neg (fun h => hcs (hmemiff.mp h))]
        simp

theorem strMk_toList (s : String) : String.mk s.toList = s := by
  cases s
  rfl

theorem pySplitLast_eq_trailing (sep : Char) (s : String) :
    pySplitLast sep s =
      String.mk ((s.toList.reverse.takeWhile (fun c => c != sep)).reverse) := by
  unfold pySplitLast
  rw [pySplitAux_getLastD sep s.toList []]
  by_cases h : sep ∈ s.toList
  · rw [if_pos h]
  · rw [if_neg h]
    have hall : ∀ x ∈ s.toList.reverse, (x != sep) = true := by
      intro x hx
      have : x ≠ sep := fun hxe => h (hxe ▸ List.mem_reverse.mp hx)
      simpa using this
    rw [takeWhile_eq_self_of_all s.toList.reverse hall, List.reverse_reverse]
    simp

/-- Claim C9: `shortId` is total on strings (it is a plain Lean function and
raises nothing), `shortId "" = "default"`, and on every string it returns the
trailing segment after splitting on `":"` when the id contains `":"` and
otherwise on `"."` — stated as a refinement: the code's `shortVoiceId` agrees
everywhere with `shortIdSpec`, the direct rendering of the spec's words. -/
theorem C9_short_id_total : shortVoiceId "" = "default" ∧
    ∀ vid : String, shortVoiceId vid = shortIdSpec vid := by
  constructor
  · rfl
  · intro vid
    unfold shortVoiceId shortIdSpec
    by_cases h : vid = ""
    · rw [if_pos h, if_pos h]
    · rw [if_neg h, if_neg h]
      exact pySplitLast_eq_trailing _ vid

/-! ### C1: reported status of a completed save job -/

/-- Claim C1 counterexample: a `RenderToFile` job whose backend raises nothing
but writes zero bytes is reported as `"✅ Saved as out.wav"` — success, with
no `SynthesisProducedNoOutput` anywhere — refuting the claim that such a job
reports an error and never success. -/
theorem C1_counterexample :
    runTtsStatus "save" (some "/home/user/out.wav") ⟨false, false, "", 0⟩
        = "✅ Saved as out.wav" ∧
    strHasSub (runTtsStatus "save" (some "/home/user/out.wav") ⟨false, false, "", 0⟩)
        "SynthesisProducedNoOutput" = false := by
  constructor
  · rfl
  · decide

/-- Claim C1 (amended): a completed `RenderToFile` job whose backend raised no
exception is reported as success (`"✅ Saved as <basename>"`) regardless of
the output file's size — `_run_tts` never inspects the output file, so a
missing or zero-byte file still reports success. -/
theorem C1_save_unverified (fp : String) (b : BackendRun)
    (h1 : b.initRaises = false) (h2 : b.runRaises = false) :
    runTtsStatus "save" (some fp) b = "✅ Saved as " ++ pyBasename fp := by
  unfold runTtsStatus
  rw [h1, h2]
  simp

theorem C1_save_unverified_witness :
    ({ initRaises := false, runRaises := false, errMsg := "", outputBytes := 0 } :
        BackendRun).initRaises = false ∧
    runTtsStatus "save" (some "/home/user/out.wav") ⟨false, false, "", 0⟩
        = "✅ Saved as " ++ pyBasename "/home/user/out.wav" :=
  ⟨rfl, C1_save_unverified "/home/user/out.wav" ⟨false, false, "", 0⟩ rfl rfl⟩

/-! ### C2: stop on an idle runner -/

/-- Claim C2 counterexample: calling `stop_now` on an idle runner showing
`"📝 Ready"` changes the state — the status label becomes `"⏹️ Stopped"` —
so `stop()` on an `Idle` runner is not a no-op and does emit a status
change. -/
theorem C2_counterexample :
    (stop_now idleReadyState).1 ≠ idleReadyState ∧
    (stop_now idleReadyState).1.status = "⏹️ Stopped" := by
  constructor
  · decide
  · rfl

/-- Claim C2 (amended): `stop_now` on an idle runner (busy flag clear, no
engine handle) leaves the runner idle, issues no backend stop call, and keeps
the engine slot empty, but it unconditionally sets the status label to
`"⏹️ Stopped"` — a visible status change rather than a strict no-op. -/
theorem C2_stop_idle (s : RunnerState) (hb : s.isBusy = false)
    (he : s.engine = none) :
    (stop_now s).1.isBusy = false ∧ (stop_now s).1.engine = none ∧
    (stop_now s).2 = false ∧ (stop_now s).1.status = "⏹️ Stopped" := by
  refine ⟨rfl, rfl, ?_, rfl⟩
  simp [stop_now, he]

theorem C2_stop_idle_witness :
    idleReadyState.isBusy = false ∧
    ((stop_now idleReadyState).1.isBusy = false ∧
     (stop_now idleReadyState).1.engine = none ∧
     (stop_now idleReadyState).2 = false ∧
     (stop_now idleReadyState).1.status = "⏹️ Stopped") :=
  ⟨rfl, C2_stop_idle idleReadyState rfl rfl⟩

/-! ### C3: busy runner rejects new submissions -/

/-- Claim C3: while a job is running (`is_busy` set), submitting a second
speak or save job returns immediately: the state is returned unchanged (the
in-flight job and every other field untouched) and no worker job is produced
— there is no queue anywhere in the state, so nothing is deferred. -/
theorem C3_busy_rejects (s : RunnerState) (text : String) (d : Option String)
    (hb : s.isBusy = true) :
    start_speaking s text = (s, none) ∧ start_saving s text d = (s, none) := by
  constructor
  · unfold start_speaking
    rw [hb]
    simp
  · unfold start_saving
    rw [hb]
    simp

theorem C3_busy_rejects_witness :
    busySpeakingState.isBusy = true ∧
    (start_speaking busySpeakingState "hello" = (busySpeakingState, none) ∧
     start_saving busySpeakingState "hello" (some "/home/user/a.wav")
        = (busySpeakingState, none)) :=
  ⟨rfl, C3_busy_rejects busySpeakingState "hello" (some "/home/user/a.wav") rfl⟩

/-! ### C4: empty-text speak requests are rejected while idle -/

/-- Claim C4: submitting a speak request whose text strips to empty on an
idle runner is rejected before anything starts: only the warning status is
set, the busy flag stays clear, the engine slot is untouched and no worker
job is produced. -/
theorem C4_empty_text_rejected (s : RunnerState) (rawText : String)
    (hb : s.isBusy = false) (ht : pyStrip rawText = "") :
    start_speaking s rawText = ({ s with status := "⚠️ Please type some text" }, none) ∧
    (start_speaking s rawText).1.isBusy = false ∧
    (start_speaking s rawText).1.engine = s.engine ∧
    (start_speaking s rawText).2 = none := by
  have hmain : start_speaking s rawText
      = ({ s with status := "⚠️ Please type some text" }, none) := by
    unfold start_speaking
    rw [hb, ht]
    simp
  refine ⟨hmain, ?_, by rw [hmain], by rw [hmain]⟩
  rw [hmain]
  exact hb

theorem C4_empty_text_rejected_witness :
    pyStrip "   " = "" ∧
    (start_speaking idleReadyState "   "
        = ({ idleReadyState with status := "⚠️ Please type some text" }, none) ∧
     (start_speaking idleReadyState "   ").1.isBusy = false ∧
     (start_speaking idleReadyState "   ").1.engine = idleReadyState.engine ∧
     (start_speaking idleReadyState "   ").2 = none) :=
  ⟨rfl, C4_empty_text_rejected idleReadyState "   " rfl rfl⟩

/-! ### C5: the rate reaching the engine -/

theorem scaleClip_bounds (x : Int) : 80 ≤ scaleClip x ∧ scaleClip x ≤ 220 := by
  unfold scaleClip
  constructor
  · exact le_max_left 80 (min 220 x)
  · exact max_le (by norm_num) (min_le_left 220 x)

theorem foldl_scaleClip_bounds (moves : List Int) :
    ∀ init : Int, 80 ≤ init → init ≤ 220 →
      80 ≤ moves.foldl (fun _ m => scaleClip m) init ∧
      moves.foldl (fun _ m => scaleClip m) init ≤ 220 := by
  induction moves with
  | nil => intro init h1 h2; simpa using ⟨h1, h2⟩
  | cons m ms ih =>
    intro init _ _
    rcases scaleClip_bounds m with ⟨hm1, hm2⟩
    simpa [List.foldl] using ih (scaleClip m) hm1 hm2

theorem rateScaleValue_bounds (cfgRate : Option Int) (moves : List Int) :
    80 ≤ rateScaleValue cfgRate moves ∧ rateScaleValue cfgRate moves ≤ 220 := by
  unfold rateScaleValue
  rcases scaleClip_bounds (cfgRate.getD 160) with ⟨h1, h2⟩
  exact foldl_scaleClip_bounds moves _ h1 h2

/-- Claim C5: every rate that `_run_tts` hands to the engine lies in
`[80, 300]`: the slider the value is read back from clips to its 80–220
range, the persisted config value is pushed through the slider at startup
(`rate_scale.set(rate_var.get())`) and re-read via `_sync_controls` before
each job, and the default is 160 — so in fact the applied rate always lies
in `[80, 220] ⊆ [80, 300]`. -/
theorem C5_rate_in_range (cfgRate : Option Int) (sliderMoves : List Int) :
    80 ≤ engineRateApplied cfgRate sliderMoves ∧
    engineRateApplied cfgRate sliderMoves ≤ 300 := by
  rcases rateScaleValue_bounds cfgRate sliderMoves with ⟨h1, h2⟩
  exact ⟨h1, le_trans h2 (by norm_num)⟩

/-! ### Lemmas about the voice filter -/

theorem gender_ok_any (d : String) : gender_ok "any" d = true := rfl

theorem gender_ok_male (d : String) :
    gender_ok "male" d = strHasSub (pyLower d) " — male — " := rfl

theorem gender_ok_female (d : String) :
    gender_ok "female" d = strHasSub (pyLower d) " — female — " := rfl

theorem gender_ok_unknown (d : String) : gender_ok "unknown" d = true := rfl

theorem filteredLabels_empty_q (dmap : List (String × String)) (genderVar : String) :
    filteredLabels dmap "" genderVar
      = (dmap.map Prod.fst).filter (fun d => gender_ok (pyLower genderVar) d) := by
  unfold filteredLabels
  have hq : pyLower (pyStrip "") = "" := rfl
  rw [hq]
  simp

theorem filteredLabels_any (dmap : List (String × String)) :
    filteredLabels dmap "" "Any" = dmap.map Prod.fst := by
  rw [filteredLabels_empty_q]
  have h : pyLower "Any" = "any" := rfl
  rw [h]
  exact List.filter_eq_self.mpr (fun d _ => gender_ok_any d)

theorem filteredLabels_unknown (dmap : List (String × String)) :
    filteredLabels dmap "" "Unknown" = dmap.map Prod.fst := by
  rw [filteredLabels_empty_q]
  have h : pyLower "Unknown" = "unknown" := rfl
  rw [h]
  exact List.filter_eq_self.mpr (fun d _ => gender_ok_unknown d)

theorem filteredLabels_male (dmap : List (String × String)) :
    filteredLabels dmap "" "Male"
      = (dmap.map Prod.fst).filter (fun d => strHasSub (pyLower d) " — male — ") := by
  rw [filteredLabels_empty_q]
  have h : pyLower "Male" = "male" := rfl
  rw [h]
  exact List.filter_congr (fun d _ => gender_ok_male d)

theorem filteredLabels_female (dmap : List (String × String)) :
    filteredLabels dmap "" "Female"
      = (dmap.map Prod.fst).filter (fun d => strHasSub (pyLower d) " — female — ") := by
  rw [filteredLabels_empty_q]
  have h : pyLower "Female" = "female" := rfl
  rw [h]
  exact List.filter_congr (fun d _ => gender_ok_female d)

theorem isEmpty_false_of_ne_nil {α : Type} {l : List α} (h : l ≠ []) :
    l.isEmpty = false := by
  cases l with
  | nil => exact absurd rfl h
  | cons x xs => rfl

theorem applyVoiceFilter_nomatch (s : FilterUiState)
    (hmap : s.voiceDisplayMap ≠ [])
    (hf : filteredLabels s.voiceDisplayMap s.filterVar s.genderVar = []) :
    applyVoiceFilter s = { s with
      comboValues := ["(No match)"],
      comboValue := "(No match)",
      selectedVoiceId := none } := by
  have hE : s.voiceDisplayMap.isEmpty = false := isEmpty_false_of_ne_nil hmap
  simp [applyVoiceFilter, hE, hf]

theorem applyVoiceFilter_kept (s : FilterUiState)
    (hmap : s.voiceDisplayMap ≠ [])
    (hc : (filteredLabels s.voiceDisplayMap s.filterVar s.genderVar).contains
            s.comboValue = true) :
    applyVoiceFilter s =
      { s with comboValues := filteredLabels s.voiceDisplayMap s.filterVar s.genderVar } := by
  have hE : s.voiceDisplayMap.isEmpty = false := isEmpty_false_of_ne_nil hmap
  have hne : filteredLabels s.voiceDisplayMap s.filterVar s.genderVar ≠ [] := by
    intro h
    rw [h] at hc
    simp at hc
  have hfE : (filteredLabels s.voiceDisplayMap s.filterVar s.genderVar).isEmpty = false :=
    isEmpty_false_of_ne_nil hne
  simp [applyVoiceFilter, hE, hc, hfE]
  intro hnot
  exact absurd (by simpa using hc) hnot

theorem applyVoiceFilter_remap (s : FilterUiState)
    (hmap : s.voiceDisplayMap ≠ [])
    (hc : (filteredLabels s.voiceDisplayMap s.filterVar s.genderVar).contains
            s.comboValue = false)
    (d0 : String) (rest : List String)
    (hf : filteredLabels s.voiceDisplayMap s.filterVar s.genderVar = d0 :: rest) :
    applyVoiceFilter s = { s with
      comboValues := d0 :: rest,
      comboValue := d0,
      selectedVoiceId := dictGet s.voiceDisplayMap d0 } := by
  have hE : s.voiceDisplayMap.isEmpty = false := isEmpty_false_of_ne_nil hmap
  have hc' : ((d0 :: rest).contains s.comboValue) = false := hf ▸ hc
  simp [applyVoiceFilter, hE, hf, hc']
  intro h
  have hn : s.comboValue ∉ (d0 :: rest) := by simpa using hc'
  exact absurd (List.mem_cons.mpr h) hn

/-! ### Lemmas about the display map -/

theorem dictInsert_of_fresh (m : List (String × String)) (k v : String)
    (h : m.any (fun p => p.1 == k) = false) :
    dictInsert m k v = m ++ [(k, v)] := by
  unfold dictInsert
  rw [h]
  simp

theorem buildDisplayMap_keys_aux (cat : List RawVoice) :
    ∀ m : List (String × String),
      (∀ l ∈ cat.map buildLabel, m.any (fun p => p.1 == l) = false) →
      (cat.map buildLabel).Nodup →
      (cat.foldl (fun m v => dictInsert m (buildLabel v) v.id) m).map Prod.fst
        = m.map Prod.fst ++ cat.map buildLabel := by
  induction cat with
  | nil => intro m _ _; simp
  | cons v vs ih =>
    intro m hfresh hnd
    have hcons : (v :: vs).map buildLabel = buildLabel v :: vs.map buildLabel :=
      List.map_cons buildLabel v vs
    rw [hcons] at hfresh hnd
    have h0 : m.any (fun p => p.1 == buildLabel v) = false :=
      hfresh (buildLabel v) (List.mem_cons_self _ _)
    rw [List.foldl_cons, dictInsert_of_fresh m (buildLabel v) v.id h0]
    have hnotin : buildLabel v ∉ vs.map buildLabel := (List.nodup_cons.mp hnd).1
    have hnd' : (vs.map buildLabel).Nodup := (List.nodup_cons.mp hnd).2
    have hfresh' : ∀ l ∈ vs.map buildLabel,
        (m ++ [(buildLabel v, v.id)]).any (fun p => p.1 == l) = false := by
      intro l hl
      rw [List.any_append]
      have h1 := hfresh l (List.mem_cons_of_mem _ hl)
      have h2 : ([(buildLabel v, v.id)].any (fun p => p.1 == l)) = false := by
        have : buildLabel v ≠ l := fun he => hnotin (he ▸ hl)
        simpa using this
      rw [h1, h2]
      rfl
    rw [ih (m ++ [(buildLabel v, v.id)]) hfresh' hnd']
    simp

theorem buildDisplayMap_keys (cat : List RawVoice)
    (h : (cat.map buildLabel).Nodup) :
    (buildDisplayMap cat).map Prod.fst = cat.map buildLabel := by
  unfold buildDisplayMap
  have := buildDisplayMap_keys_aux cat [] (fun l _ => rfl) h
  simpa using this

theorem mem_keys_dictInsert_self (m : List (String × String)) (k v : String) :
    k ∈ (dictInsert m k v).map Prod.fst := by
  unfold dictInsert
  by_cases h : m.any (fun p => p.1 == k) = true
  · rw [if_pos h]
    obtain ⟨p, hp, hpk⟩ := List.any_eq_true.mp h
    refine List.mem_map.mpr ⟨(k, v), List.mem_map.mpr ⟨p, hp, ?_⟩, rfl⟩
    rw [if_pos hpk]
  · rw [if_neg h]
    simp

theorem mem_keys_dictInsert_mono (m : List (String × String)) (k v k' : String)
    (h : k' ∈ m.map Prod.fst) : k' ∈ (dictInsert m k v).map Prod.fst := by
  unfold dictInsert
  by_cases ha : m.any (fun p => p.1 == k) = true
  · rw [if_pos ha]
    obtain ⟨p, hp, hpe⟩ := List.mem_map.mp h
    by_cases hpk : (p.1 == k) = true
    · have hk : p.1 = k := by simpa using hpk
      refine List.mem_map.mpr ⟨(k, v), List.mem_map.mpr ⟨p, hp, ?_⟩, ?_⟩
      · rw [if_pos hpk]
      · rw [← hpe, hk]
    · have hpk' : (p.1 == k) = false := by
        cases hx : (p.1 == k)
        · rfl
        · exact absurd hx hpk
      refine List.mem_map.mpr ⟨p, List.mem_map.mpr ⟨p, hp, ?_⟩, hpe⟩
      rw [hpk']
      simp
  · rw [if_neg ha]
    rw [List.map_append]
    exact List.mem_append_left _ h

theorem mem_keys_foldl_mono (cat : List RawVoice) :
    ∀ (m : List (String × String)) (k : String), k ∈ m.map Prod.fst →
      k ∈ (cat.foldl (fun m u => dictInsert m (buildLabel u) u.id) m).map Prod.fst := by
  induction cat with
  | nil => intro m k h; simpa using h
  | cons u us ih =>
    intro m k h
    rw [List.foldl_cons]
    exact ih _ k (mem_keys_dictInsert_mono _ _ _ _ h)

theorem mem_keys_foldl (cat : List RawVoice) :
    ∀ (m : List (String × String)) (v : RawVoice), v ∈ cat →
      buildLabel v ∈ (cat.foldl (fun m u => dictInsert m (buildLabel u) u.id) m).map Prod.fst := by
  induction cat with
  | nil => intro m v hv; cases hv
  | cons u us ih =>
    intro m v hv
    rw [List.foldl_cons]
    rcases List.mem_cons.mp hv with rfl | hv'
    · exact mem_keys_foldl_mono us _ _ (mem_keys_dictInsert_self m (buildLabel v) v.id)
    · exact ih (dictInsert m (buildLabel u) u.id) v hv'

theorem mem_keys_buildDisplayMap (cat : List RawVoice) (v : RawVoice) (hv : v ∈ cat) :
    buildLabel v ∈ (buildDisplayMap cat).map Prod.fst :=
  mem_keys_foldl cat [] v hv

/-! ### The gender marker inside built labels -/

theorem strToList_append (a b : String) : (a ++ b).toList = a.toList ++ b.toList := by
  cases a
  cases b
  rfl

theorem label_has_marker_male (v : RawVoice) (h : detectGender v = "male") :
    strHasSub (pyLower (buildLabel v)) " — male — " = true := by
  have hlist : (buildLabel v).toList.map Char.toLower
      = ((v.name.toList ++ (langSuffix v).toList).map Char.toLower)
        ++ " — male — ".toList
        ++ ((shortVoiceId v.id).toList.map Char.toLower) := by
    unfold buildLabel
    rw [h]
    have hcap : pyCapitalize "male" = "Male" := rfl
    rw [hcap]
    simp only [strToList_append, List.map_append]
    have hm1 : (" — ".toList.map Char.toLower : List Char) = " — ".toList := by decide
    have hm2 : ("Male".toList.map Char.toLower : List Char) = "male".toList := by decide
    have hm3 : (" — male — ".toList : List Char)
        = " — ".toList ++ ("male".toList ++ " — ".toList) := by decide
    rw [hm1, hm2, hm3]
    simp [List.append_assoc]
  show listHasSub (" — male — ".toList) ((buildLabel v).toList.map Char.toLower) = true
  rw [hlist]
  exact listHasSub_append_mid _ _ _

theorem label_has_marker_female (v : RawVoice) (h : detectGender v = "female") :
    strHasSub (pyLower (buildLabel v)) " — female — " = true := by
  have hlist : (buildLabel v).toList.map Char.toLower
      = ((v.name.toList ++ (langSuffix v).toList).map Char.toLower)
        ++ " — female — ".toList
        ++ ((shortVoiceId v.id).toList.map Char.toLower) := by
    unfold buildLabel
    rw [h]
    have hcap : pyCapitalize "female" = "Female" := rfl
    rw [hcap]
    simp only [strToList_append, List.map_append]
    have hm1 : (" — ".toList.map Char.toLower : List Char) = " — ".toList := by decide
    have hm2 : ("Female".toList.map Char.toLower : List Char) = "female".toList := by decide
    have hm3 : (" — female — ".toList : List Char)
        = " — ".toList ++ ("female".toList ++ " — ".toList) := by decide
    rw [hm1, hm2, hm3]
    simp [List.append_assoc]
  show listHasSub (" — female — ".toList) ((buildLabel v).toList.map Char.toLower) = true
  rw [hlist]
  exact listHasSub_append_mid _ _ _

/-! ### C6: empty query with the Any facet is the identity filter -/

/-- Claim C6: with an empty query and the `Any` gender facet the filter
returns every display-map key unchanged and in order, these become the
combobox values, and (for catalogs without duplicate labels) the display-map
keys are exactly the catalog's labels in enumeration order. -/
theorem C6_empty_query_identity (s : FilterUiState)
    (hmap : s.voiceDisplayMap ≠ []) (hq : s.filterVar = "") (hg : s.genderVar = "Any") :
    filteredLabels s.voiceDisplayMap s.filterVar s.genderVar
        = s.voiceDisplayMap.map Prod.fst ∧
    (applyVoiceFilter s).comboValues = s.voiceDisplayMap.map Prod.fst ∧
    ∀ cat : List RawVoice, (cat.map buildLabel).Nodup →
      (buildDisplayMap cat).map Prod.fst = cat.map buildLabel := by
  have hfl : filteredLabels s.voiceDisplayMap s.filterVar s.genderVar
      = s.voiceDisplayMap.map Prod.fst := by
    rw [hq, hg]
    exact filteredLabels_any s.voiceDisplayMap
  refine ⟨hfl, ?_, fun cat h => buildDisplayMap_keys cat h⟩
  have hne : filteredLabels s.voiceDisplayMap s.filterVar s.genderVar ≠ [] := by
    rw [hfl]
    simpa using hmap
  by_cases hc : (filteredLabels s.voiceDisplayMap s.filterVar s.genderVar).contains
      s.comboValue = true
  · rw [applyVoiceFilter_kept s hmap hc]
    exact hfl
  · have hc' : (filteredLabels s.voiceDisplayMap s.filterVar s.genderVar).contains
        s.comboValue = false := by
      cases hx : (filteredLabels s.voiceDisplayMap s.filterVar s.genderVar).contains s.comboValue
      · rfl
      · exact absurd hx hc
    cases hF : filteredLabels s.voiceDisplayMap s.filterVar s.genderVar with
    | nil => exact absurd hF hne
    | cons d0 rest =>
      rw [applyVoiceFilter_remap s hmap hc' d0 rest hF]
      rw [← hF]
      exact hfl

theorem C6_empty_query_identity_witness :
    scenarioFilterState.voiceDisplayMap ≠ [] ∧
    (filteredLabels scenarioFilterState.voiceDisplayMap scenarioFilterState.filterVar
          scenarioFilterState.genderVar
        = scenarioFilterState.voiceDisplayMap.map Prod.fst ∧
     (applyVoiceFilter scenarioFilterState).comboValues
        = scenarioFilterState.voiceDisplayMap.map Prod.fst ∧
     ∀ cat : List RawVoice, (cat.map buildLabel).Nodup →
       (buildDisplayMap cat).map Prod.fst = cat.map buildLabel) :=
  ⟨by decide, C6_empty_query_identity scenarioFilterState (by decide) rfl rfl⟩

/-! ### C10: selection consistency after filtering -/

/-- Claim C10: after `_apply_voice_filter` runs on a non-empty display map,
the selection is consistent with the filter result: a surviving current label
is kept (state otherwise unchanged except the published values); a
non-surviving one is silently replaced by the first filtered label, with the
selected voice id remapped through the display map; and when nothing matches
the combobox shows `"(No match)"` and the selected voice id becomes `none` —
so a non-matching query clears the user's voice selection. -/
theorem C10_selection_consistency (s : FilterUiState)
    (hmap : s.voiceDisplayMap ≠ []) :
    ((filteredLabels s.voiceDisplayMap s.filterVar s.genderVar).contains s.comboValue = true →
      applyVoiceFilter s
        = { s with comboValues := filteredLabels s.voiceDisplayMap s.filterVar s.genderVar }) ∧
    (∀ d0 rest,
      (filteredLabels s.voiceDisplayMap s.filterVar s.genderVar).contains s.comboValue = false →
      filteredLabels s.voiceDisplayMap s.filterVar s.genderVar = d0 :: rest →
      applyVoiceFilter s = { s with
        comboValues := d0 :: rest,
        comboValue := d0,
        selectedVoiceId := dictGet s.voiceDisplayMap d0 }) ∧
    (filteredLabels s.voiceDisplayMap s.filterVar s.genderVar = [] →
      applyVoiceFilter s = { s with
        comboValues := ["(No match)"],
        comboValue := "(No match)",
        selectedVoiceId := none }) := by
  refine ⟨?_, ?_, ?_⟩
  · intro hc
    exact applyVoiceFilter_kept s hmap hc
  · intro d0 rest hc hf
    exact applyVoiceFilter_remap s hmap hc d0 rest hf
  · intro hf
    exact applyVoiceFilter_nomatch s hmap hf

theorem C10_selection_consistency_witness :
    noMatchFilterState.voiceDisplayMap ≠ [] ∧
    filteredLabels noMatchFilterState.voiceDisplayMap noMatchFilterState.filterVar
        noMatchFilterState.genderVar = [] ∧
    applyVoiceFilter noMatchFilterState = { noMatchFilterState with
      comboValues := ["(No match)"],
      comboValue := "(No match)",
      selectedVoiceId := none } :=
  ⟨by decide, by decide,
   (C10_selection_consistency noMatchFilterState (by decide)).2.2 (by decide)⟩

/-! ### C7: gender facet filtering -/

/-- Claim C7 counterexample: the voice named `"Anna — Male — Test"` with
explicit gender field `"female"` is classified Female, yet the Male facet
filter returns its label, because facet filtering matches the substring
`" — male — "` against the whole lower-cased label and the *name* contains
the marker.  So `filter(cat, "", Male)` does not return exactly the labels of
voices classified Male. -/
theorem C7_counterexample :
    detectGender annaVoice = "female" ∧
    ([annaVoice].filter (fun v => detectGender v = "male")) = [] ∧
    filteredLabels (buildDisplayMap [annaVoice]) "" "Male" = [buildLabel annaVoice] := by
  refine ⟨by decide, by decide, by decide⟩

/-- Claim C7 (amended): with an empty query the Male (resp. Female) facet
returns exactly the labels whose lower-casing contains the `" — male — "`
(resp. `" — female — "`) marker; every Male-classified (resp.
Female-classified) catalog voice's label is among them, but a voice whose
name itself contains a marker can additionally appear under the wrong facet;
the union of the Male, Female and Unknown facet results equals the Any
result; and in the two-voice scenario the Female filter returns exactly the
Zira label. -/
theorem C7_gender_facet_amended :
    (∀ dmap : List (String × String), filteredLabels dmap "" "Male"
        = (dmap.map Prod.fst).filter (fun d => strHasSub (pyLower d) " — male — ")) ∧
    (∀ dmap : List (String × String), filteredLabels dmap "" "Female"
        = (dmap.map Prod.fst).filter (fun d => strHasSub (pyLower d) " — female — ")) ∧
    (∀ (dmap : List (String × String)) (d : String),
      (d ∈ filteredLabels dmap "" "Male" ∨ d ∈ filteredLabels dmap "" "Female" ∨
       d ∈ filteredLabels dmap "" "Unknown") ↔ d ∈ filteredLabels dmap "" "Any") ∧
    (∀ (cat : List RawVoice) (v : RawVoice), v ∈ cat → detectGender v = "male" →
      buildLabel v ∈ filteredLabels (buildDisplayMap cat) "" "Male") ∧
    (∀ (cat : List RawVoice) (v : RawVoice), v ∈ cat → detectGender v = "female" →
      buildLabel v ∈ filteredLabels (buildDisplayMap cat) "" "Female") ∧
    filteredLabels (buildDisplayMap [ziraVoice, davidVoice]) "" "Female"
        = [buildLabel ziraVoice] := by
  refine ⟨filteredLabels_male, filteredLabels_female, ?_, ?_, ?_, by decide⟩
  · intro dmap d
    rw [filteredLabels_unknown, filteredLabels_any]
    constructor
    · intro h
      rcases h with h | h | h
      · rw [filteredLabels_male] at h
        exact List.mem_of_mem_filter h
      · rw [filteredLabels_female] at h
        exact List.mem_of_mem_filter h
      · exact h
    · intro h
      exact Or.inr (Or.inr h)
  · intro cat v hv h
    rw [filteredLabels_male]
    exact List.mem_filter.mpr ⟨mem_keys_buildDisplayMap cat v hv, label_has_marker_male v h⟩
  · intro cat v hv h
    rw [filteredLabels_female]
    exact List.mem_filter.mpr ⟨mem_keys_buildDisplayMap cat v hv, label_has_marker_female v h⟩

theorem C7_gender_facet_amended_witness :
    davidVoice ∈ [ziraVoice, davidVoice] ∧ detectGender davidVoice = "male" ∧
    buildLabel davidVoice ∈ filteredLabels (buildDisplayMap [ziraVoice, davidVoice]) "" "Male" :=
  ⟨by decide, by decide,
   C7_gender_facet_amended.2.2.2.1 [ziraVoice, davidVoice] davidVoice (by decide) (by decide)⟩

/-! ### C8: the gender classifier -/

theorem parseGenderField_cases (og : Option String) (r : String)
    (h : parseGenderField og = some r) : r = "female" ∨ r = "male" := by
  cases og with
  | none => exact absurd h (by simp [parseGenderField])
  | some g =>
    simp only [parseGenderField] at h
    split at h
    · cases h
    · split at h
      · exact Or.inl (Option.some.inj h).symm
      · split at h
        · exact Or.inr (Option.some.inj h).symm
        · cases h

theorem detectGender_of_parse (v : RawVoice) (r : String)
    (h : parseGenderField v.gender = some r) : detectGender v = r := by
  unfold detectGender
  rw [h]

theorem detectGender_of_noparse (v : RawVoice)
    (h : parseGenderField v.gender = none) :
    detectGender v = heuristicGender v.name v.id := by
  unfold detectGender
  rw [h]

theorem heuristicGender_cases (nm vid : String) :
    heuristicGender nm vid = "female" ∨ heuristicGender nm vid = "male" ∨
    heuristicGender nm vid = "unknown" := by
  simp only [heuristicGender]
  split
  · exact Or.inl rfl
  · split
    · exact Or.inr (Or.inl rfl)
    · exact Or.inr (Or.inr rfl)

theorem heuristicGender_unknown_iff (nm vid : String) :
    heuristicGender nm vid = "unknown" ↔
      ((strHasSub (pyLower (nm ++ " " ++ vid)) "+f"
          || femaleTokens.any (fun t => strHasSub (pyLower (nm ++ " " ++ vid)) t)) = false ∧
       (strHasSub (pyLower (nm ++ " " ++ vid)) "+m"
          || maleTokens.any (fun t => strHasSub (pyLower (nm ++ " " ++ vid)) t)) = false) := by
  simp only [heuristicGender]
  by_cases h1 : (strHasSub (pyLower (nm ++ " " ++ vid)) "+f"
      || femaleTokens.any (fun t => strHasSub (pyLower (nm ++ " " ++ vid)) t)) = true
  · rw [if_pos h1]
    constructor
    · intro hc
      exact absurd hc (by decide)
    · rintro ⟨ha, _⟩
      rw [ha] at h1
      cases h1
  · have h1f : (strHasSub (pyLower (nm ++ " " ++ vid)) "+f"
        || femaleTokens.any (fun t => strHasSub (pyLower (nm ++ " " ++ vid)) t)) = false := by
      cases hx : (strHasSub (pyLower (nm ++ " " ++ vid)) "+f"
          || femaleTokens.any (fun t => strHasSub (pyLower (nm ++ " " ++ vid)) t))
      · rfl
      · exact absurd hx h1
    rw [if_neg h1]
    by_cases h2 : (strHasSub (pyLower (nm ++ " " ++ vid)) "+m"
        || maleTokens.any (fun t => strHasSub (pyLower (nm ++ " " ++ vid)) t)) = true
    · rw [if_pos h2]
      constructor
      · intro hc
        exact absurd hc (by decide)
      · rintro ⟨_, hb2⟩
        rw [hb2] at h2
        cases h2
    · have h2f : (strHasSub (pyLower (nm ++ " " ++ vid)) "+m"
          || maleTokens.any (fun t => strHasSub (pyLower (nm ++ " " ++ vid)) t)) = false := by
        cases hx : (strHasSub (pyLower (nm ++ " " ++ vid)) "+m"
            || maleTokens.any (fun t => strHasSub (pyLower (nm ++ " " ++ vid)) t))
        · rfl
        · exact absurd hx h2
      rw [if_neg h2]
      exact ⟨fun _ => ⟨h1f, h2f⟩, fun _ => rfl⟩

/-- Claim C8: the gender classifier is a total function into
`{"male", "female", "unknown"}` and applies its rules in priority order: the
explicit backend gender field decides when it parses (and it only ever parses
to male or female); otherwise the name/id substring heuristics decide; and
the result is `"unknown"` exactly when neither the `"+f"`/female-token
markers nor the `"+m"`/male-token markers occur in the lower-cased
concatenation of name and id. -/
theorem C8_classify_total_priority :
    (∀ v : RawVoice, detectGender v = "male" ∨ detectGender v = "female"
        ∨ detectGender v = "unknown") ∧
    (∀ (og : Option String) (r : String), parseGenderField og = some r →
        r = "female" ∨ r = "male") ∧
    (∀ (v : RawVoice) (r : String), parseGenderField v.gender = some r →
        detectGender v = r) ∧
    (∀ v : RawVoice, parseGenderField v.gender = none →
        detectGender v = heuristicGender v.name v.id) ∧
    (∀ nm vid : String, heuristicGender nm vid = "unknown" ↔
      ((strHasSub (pyLower (nm ++ " " ++ vid)) "+f"
          || femaleTokens.any (fun t => strHasSub (pyLower (nm ++ " " ++ vid)) t)) = false ∧
       (strHasSub (pyLower (nm ++ " " ++ vid)) "+m"
          || maleTokens.any (fun t => strHasSub (pyLower (nm ++ " " ++ vid)) t)) = false)) := by
  refine ⟨?_, parseGenderField_cases, detectGender_of_parse, detectGender_of_noparse,
    heuristicGender_unknown_iff⟩
  intro v
  cases hp : parseGenderField v.gender with
  | some r =>
    rw [detectGender_of_parse v r hp]
    rcases parseGenderField_cases v.gender r hp with hr | hr
    · exact Or.inr (Or.inl hr)
    · exact Or.inl hr
  | none =>
    rw [detectGender_of_noparse v hp]
    rcases heuristicGender_cases v.name v.id with h | h | h
    · exact Or.inr (Or.inl h)
    · exact Or.inl h
    · exact Or.inr (Or.inr h)

theorem C8_classify_total_priority_witness :
    parseGenderField ziraVoice.gender = some "female" ∧ detectGender ziraVoice = "female" :=
  ⟨by decide, C8_classify_total_priority.2.2.1 ziraVoice "female" (by decide)⟩
